import Mathlib

/-!
Shallow embedding of the console-code security engine
(src/security/PIIDetector.ts, src/security/DataSanitizer.ts,
src/security/ConsentManager.ts, src/security/SecurityEngine.ts)
together with theorems settling the specification claims.

Conventions of the embedding:
* JS numbers that only ever hold exact decimal fractions (confidences,
  risk scores, multipliers, scan times) are modelled as rationals.
* Text is modelled as a list of characters; string indices become list
  positions, `substring(a, b)` becomes `(drop a).take (b - a)`.
* Class instance state becomes explicit state records; methods become
  functions from state to state.
* Values drawn from the runtime environment (Date.now, performance.now,
  Math.random based identifiers) are passed in as explicit parameters.
-/

namespace ConsoleCode

/-! ## Basic enumerations (src/types, as used by the security engine) -/

/-- PII kinds from the type union in src/types (PIIType). -/
inductive PIIType where
  | creditCard
  | ssn
  | email
  | phone
  | ipAddress
  | apiKey
  | jwt
  | password
  | custom
deriving DecidableEq, Repr

/-- Sensitivity levels, ordered public < internal < confidential < restricted. -/
inductive SensitivityLevel where
  | publicLevel
  | internalLevel
  | confidentialLevel
  | restrictedLevel
deriving DecidableEq, Repr

/-- Consent statuses (ConsentStatus in src/types). -/
inductive ConsentStatus where
  | granted
  | denied
  | withdrawn
  | pending
deriving DecidableEq, Repr

/-- Processing purposes (ProcessingPurpose in src/types). -/
inductive ProcessingPurpose where
  | logging
  | analytics
  | debugging
  | performance_monitoring
  | error_reporting
  | export_functionality
deriving DecidableEq, Repr

/-! ## PIIDetector: detection results and overlap removal
(src/security/PIIDetector.ts) -/

/-- PIIDetectionResult from src/types, produced by PIIDetector.findPatternMatches. -/
structure PIIDetectionResult where
  type : PIIType
  value : List Char
  startIndex : Nat
  endIndex : Nat
  confidence : ℚ
  patternName : String
  highConfidence : Bool
deriving DecidableEq, Repr

/-- Overlap test from PIIDetector.removeOverlappingDetections (line 405):
`!(detection.endIndex <= existing.startIndex || detection.startIndex >= existing.endIndex)`. -/
def detectionOverlaps (detection existing : PIIDetectionResult) : Bool :=
  !(decide (detection.endIndex ≤ existing.startIndex) ||
    decide (existing.endIndex ≤ detection.startIndex))

/-- Comparator of the first sort in removeOverlappingDetections (lines 394-399):
confidence descending, then start index ascending.  `confDescLe a b` holds when
`a` may be placed before `b`. -/
def confDescLe (a b : PIIDetectionResult) : Bool :=
  decide (b.confidence < a.confidence) ||
    (decide (a.confidence = b.confidence) && decide (a.startIndex ≤ b.startIndex))

/-- Comparator of the final sort in removeOverlappingDetections (line 415):
start index ascending. -/
def startAscLe (a b : PIIDetectionResult) : Bool :=
  decide (a.startIndex ≤ b.startIndex)

/-- Greedy acceptance loop over the confidence-sorted candidates
(lines 401-412): accept a detection only when it overlaps no already
accepted detection. -/
def greedySelect (sorted : List PIIDetectionResult) : List PIIDetectionResult :=
  sorted.foldl
    (fun filtered detection =>
      if filtered.any (fun existing => detectionOverlaps detection existing) then filtered
      else filtered ++ [detection])
    []

/-- PIIDetector.removeOverlappingDetections (lines 390-416).  The two JS
`Array.prototype.sort` calls are modelled by the stable `List.mergeSort`
with the corresponding comparators. -/
def removeOverlappingDetections (detections : List PIIDetectionResult) :
    List PIIDetectionResult :=
  if detections.length ≤ 1 then detections
  else (greedySelect (detections.mergeSort confDescLe)).mergeSort startAscLe

/-- PIIDetector.scanText, line 55: candidates below the confidence threshold
are dropped before overlap resolution. -/
def filterByMinConfidence (minConfidence : ℚ) (ms : List PIIDetectionResult) :
    List PIIDetectionResult :=
  ms.filter (fun m => decide (minConfidence ≤ m.confidence))

/-- PIIDetector.scanText (lines 46-74), as a function of the list of raw
per-pattern candidates gathered from the pattern library for a given text
and threshold: filter by confidence, then remove overlaps. -/
def scanTextFromCandidates (minConfidence : ℚ)
    (candidates : List PIIDetectionResult) : List PIIDetectionResult :=
  removeOverlappingDetections (filterByMinConfidence minConfidence candidates)

/-! ## DataSanitizer (src/security/DataSanitizer.ts) -/

/-- Sanitization result (SanitizationResult in src/types).  The per-action
audit-trail entries carried alongside in the source record hashes and wall
clock timestamps of the replacements; they are not part of the text
transformation and are omitted here. -/
structure SanitizationResult where
  originalText : List Char
  sanitizedText : List Char
  sanitizedDetections : List PIIDetectionResult
  wasModified : Bool
deriving DecidableEq, Repr

/-- Comparator of the sort in DataSanitizer.sanitizeText (line 12 of the
method): start index descending (`(a, b) => b.startIndex - a.startIndex`). -/
def startDescLe (a b : PIIDetectionResult) : Bool :=
  decide (b.startIndex ≤ a.startIndex)

/-- One splice step of DataSanitizer.sanitizeText: replace the span
`[startIndex, endIndex)` of the current text with the sanitized value.
`repl` stands for `applySanitizationStrategy(detection.value, detection.type,
strategy)` with the strategy resolved by `getStrategyForPIIType`; it depends
only on the detection. -/
def spliceDetection (repl : PIIDetectionResult → List Char)
    (text : List Char) (detection : PIIDetectionResult) : List Char :=
  text.take detection.startIndex ++ repl detection ++ text.drop detection.endIndex

/-- DataSanitizer.sanitizeText: empty detection list short-circuits with
`wasModified = false`; otherwise detections are sorted by start index
descending and spliced right-to-left, and each processed detection is
re-emitted with its end index moved to the end of the replacement. -/
def sanitizeText (repl : PIIDetectionResult → List Char)
    (originalText : List Char) (detections : List PIIDetectionResult) :
    SanitizationResult :=
  if detections.length = 0 then
    { originalText := originalText
      sanitizedText := originalText
      sanitizedDetections := []
      wasModified := false }
  else
    let sortedDetections := detections.mergeSort startDescLe
    { originalText := originalText
      sanitizedText := sortedDetections.foldl (spliceDetection repl) originalText
      sanitizedDetections := sortedDetections.map (fun detection =>
        { detection with endIndex := detection.startIndex + (repl detection).length })
      wasModified := true }

/-- Reference decomposition used to state claim C2: starting at position
`pos` of the original text, emit the untouched characters up to the next
detection, then its replacement, then continue after that detection; the
final tail of the text is emitted unchanged.  This expresses "every detected
span is replaced by its strategy value and every character outside the
detected spans is preserved at its relative position". -/
def interleaveFrom (repl : PIIDetectionResult → List Char)
    (text : List Char) (pos : Nat) : List PIIDetectionResult → List Char
  | [] => text.drop pos
  | d :: rest =>
      (text.drop pos).take (d.startIndex - pos) ++ repl d ++
        interleaveFrom repl text d.endIndex rest

/-! ## PIIDetector: per-match confidence scoring
(src/security/PIIDetector.ts lines 161-383) -/

/-- Boolean prefix test on character lists (needle first). -/
def startsWithSeq : List Char → List Char → Bool
  | [], _ => true
  | _ :: _, [] => false
  | a :: as, b :: bs => a == b && startsWithSeq as bs

/-- Boolean substring test on character lists, modelling
`String.prototype.includes` (needle first). -/
def containsSeq (needle : List Char) : List Char → Bool
  | [] => startsWithSeq needle []
  | c :: rest => startsWithSeq needle (c :: rest) || containsSeq needle rest

/-- Characters counted as whitespace by the `\s` class of the email
validation regex (ASCII part). -/
def jsWhitespace (c : Char) : Bool :=
  c == ' ' || c == '\t' || c == '\n' || c == '\r' || c == '\x0b' || c == '\x0c'

/-- Digits of a value, modelling `value.replace(/\D/g, '')`. -/
def digitsOf (value : List Char) : List Char := value.filter Char.isDigit

/-- Numeric value of a digit character. -/
def digitVal (c : Char) : Nat := c.toNat - 48

/-- Doubling step of the Luhn algorithm (PIIDetector.validateCreditCard). -/
def luhnDouble (n : Nat) : Nat :=
  let m := n * 2
  if m > 9 then m % 10 + 1 else m

/-- Luhn checksum accumulation from the rightmost digit, with the alternate
flag starting false (PIIDetector.validateCreditCard lines 317-333).  The
input list is the digit sequence reversed. -/
def luhnSum : List Nat → Bool → Nat
  | [], _ => 0
  | d :: rest, alternate => (if alternate then luhnDouble d else d) + luhnSum rest (!alternate)

/-- PIIDetector.validateCreditCard (lines 310-336): 13-19 digits and Luhn
checksum divisible by 10. -/
def validateCreditCard (cardNumber : List Char) : Bool :=
  let digits := digitsOf cardNumber
  if digits.length < 13 || digits.length > 19 then false
  else luhnSum (digits.reverse.map digitVal) false % 10 == 0

/-- PIIDetector.validateEmail (lines 343-347): full match of
`/^[^\s@]+@[^\s@]+\.[^\s@]+$/` (decomposed: exactly one `@`, non-empty
whitespace-free local part, whitespace-free domain with an interior dot)
and no `..` substring. -/
def validateEmail (email : List Char) : Bool :=
  match email.splitOn '@' with
  | [localPart, domainPart] =>
      !localPart.isEmpty && localPart.all (fun c => !jsWhitespace c) &&
      domainPart.all (fun c => !jsWhitespace c) &&
      ((domainPart.drop 1).dropLast).contains '.' &&
      !containsSeq ['.', '.'] email
  | _ => false

/-- PIIDetector.validateSSN (lines 354-373): exactly nine digits and none of
the area/group/serial segments equal to a reserved pattern. -/
def validateSSN (ssn : List Char) : Bool :=
  let digits := digitsOf ssn
  if digits.length ≠ 9 then false
  else
    let area := digits.take 3
    let group := (digits.drop 3).take 2
    let serial := (digits.drop 5).take 4
    let invalidPatterns : List (List Char) :=
      [['0','0','0'], ['6','6','6'], ['9','0','0'], ['9','9','9'],
        ['0','0','0','0'], ['0','0']]
    !invalidPatterns.contains area && !invalidPatterns.contains group &&
      !invalidPatterns.contains serial

/-- PIIDetector.validatePhone (lines 380-383): between 10 and 15 digits. -/
def validatePhone (phone : List Char) : Bool :=
  let digits := digitsOf phone
  decide (10 ≤ digits.length) && decide (digits.length ≤ 15)

/-- PIIDetector.validateContext (lines 219-277): contextual confidence
multiplier computed from the lowercased ±20-character window around the
match. -/
def validateContext (text : List Char) (matchIndex : Nat) (matchValue : List Char)
    (piiType : PIIType) : ℚ :=
  let contextRadius := 20
  let contextStart := matchIndex - contextRadius
  let contextEnd := min text.length (matchIndex + matchValue.length + contextRadius)
  let context := ((text.drop contextStart).take (contextEnd - contextStart)).map Char.toLower
  let has := fun (kw : String) => containsSeq kw.toList context
  match piiType with
  | .email =>
      if has "email" || has "mail" || has "@" then 1
      else if has "user" || has "login" || has "account" then 9/10
      else 8/10
  | .creditCard =>
      if has "card" || has "payment" || has "visa" || has "mastercard" || has "amex" then 1
      else if has "number" || has "cc" || has "credit" then 9/10
      else 7/10
  | .ssn =>
      if has "ssn" || has "social" || has "security" then 1
      else if has "tax" || has "id" || has "number" then 8/10
      else 6/10
  | .phone =>
      if has "phone" || has "tel" || has "call" || has "mobile" || has "contact" then 1
      else 8/10
  | .apiKey =>
      if has "key" || has "token" || has "auth" || has "api" || has "bearer" then 1
      else 8/10
  | .jwt =>
      if has "key" || has "token" || has "auth" || has "api" || has "bearer" then 1
      else 8/10
  | _ => 8/10

/-- PIIDetector.applyTypeSpecificValidation (lines 286-303). -/
def applyTypeSpecificValidation (value : List Char) (piiType : PIIType)
    (currentConfidence : ℚ) : ℚ :=
  match piiType with
  | .creditCard => if validateCreditCard value then currentConfidence else currentConfidence * (1/2)
  | .email => if validateEmail value then currentConfidence else currentConfidence * (3/10)
  | .ssn => if validateSSN value then currentConfidence else currentConfidence * (2/10)
  | .phone => if validatePhone value then currentConfidence else currentConfidence * (6/10)
  | _ => currentConfidence

/-- PIIPattern (src/types), without the compiled regular expression: the
matcher itself only produces the match position and value consumed here. -/
structure PIIPattern where
  name : String
  type : PIIType
  baseConfidence : ℚ
  validator : Option (List Char → Bool)
  requiresContext : Bool

/-- Confidence computation of the match loop of
PIIDetector.findPatternMatches (lines 168-198) for one regex match at
`matchIndex` with text `matchedValue`: `none` when the pattern validator
rejects the match (it is skipped), otherwise the final confidence. -/
def matchConfidence (pattern : PIIPattern) (text : List Char) (matchIndex : Nat)
    (matchedValue : List Char) : Option ℚ :=
  let contextStep := fun (confidence : ℚ) =>
    let confidence :=
      if pattern.requiresContext then
        confidence * validateContext text matchIndex matchedValue pattern.type
      else confidence
    applyTypeSpecificValidation matchedValue pattern.type confidence
  match pattern.validator with
  | some validator =>
      if !validator matchedValue then none
      else some (contextStep (min 1 (pattern.baseConfidence + 1/10)))
  | none => some (contextStep pattern.baseConfidence)

/-- Claim-side restatement of the semantic validation step of C6: a
type-specific multiplier (Luhn failure halves the confidence, a malformed
email multiplies it by 0.3, a structurally invalid SSN by 0.2, an
implausible phone digit count by 0.6). -/
def semanticMultiplier (value : List Char) : PIIType → ℚ
  | .creditCard => if validateCreditCard value then 1 else 1/2
  | .email => if validateEmail value then 1 else 3/10
  | .ssn => if validateSSN value then 1 else 2/10
  | .phone => if validatePhone value then 1 else 6/10
  | _ => 1

/-- Claim-side restatement of the whole confidence pipeline of C6: start at
the base confidence; a rejecting validator discards the match and a passing
one adds 0.1 capped at 1.0; with required context, multiply by the window
factor; finally multiply by the semantic multiplier. -/
def matchConfidenceClaim (pattern : PIIPattern) (text : List Char) (matchIndex : Nat)
    (matchedValue : List Char) : Option ℚ :=
  let finishStages := fun (confidence : ℚ) =>
    (if pattern.requiresContext then
        confidence * validateContext text matchIndex matchedValue pattern.type
      else confidence) * semanticMultiplier matchedValue pattern.type
  match pattern.validator with
  | some validator =>
      if validator matchedValue = false then none
      else some (finishStages (min 1 (pattern.baseConfidence + 1/10)))
  | none => some (finishStages pattern.baseConfidence)

/-! ## ConsentManager (src/security/ConsentManager.ts) -/

/-- Jurisdiction of the privacy notice configuration. -/
inductive Jurisdiction where
  | GDPR
  | CCPA
  | BOTH
deriving DecidableEq, Repr

/-- Compliance flags attached to every audit entry. -/
structure AuditCompliance where
  gdpr : Bool
  ccpa : Bool
  hipaa : Bool
deriving DecidableEq, Repr

/-- Audit event types (AuditLogEntry in src/types). -/
inductive AuditEventType where
  | consent_given
  | consent_withdrawn
  | data_exported
  | data_deleted
deriving DecidableEq, Repr

/-- AuditLogEntry.  The free-form `details` object is flattened to the
fields the consent operations actually write. -/
structure AuditLogEntry where
  id : String
  timestamp : Nat
  eventType : AuditEventType
  userId : String
  detailPurpose : Option ProcessingPurpose
  detailConsentStatus : Option ConsentStatus
  detailOldStatus : Option ConsentStatus
  detailConsentId : Option String
  ipAddress : String
  userAgent : String
  compliance : AuditCompliance
deriving DecidableEq, Repr

/-- ConsentPreferences (src/types).  The `purposes` record object is an
association list in insertion order, matching JS object key order. -/
structure ConsentPreferences where
  id : String
  userId : String
  purposes : List (ProcessingPurpose × ConsentStatus)
  piiProcessing : ConsentStatus
  dataRetentionHours : Nat
  consentTimestamp : Nat
  lastUpdated : Nat
  ipAddress : String
  userAgent : String
deriving DecidableEq, Repr

/-- Lookup `purposes[purpose]` in the purposes object. -/
def getPurposeStatus (purposes : List (ProcessingPurpose × ConsentStatus))
    (purpose : ProcessingPurpose) : Option ConsentStatus :=
  (purposes.find? (fun q => q.1 == purpose)).map (fun q => q.2)

/-- Assignment `purposes[purpose] = status` on the purposes object: update
in place when the key exists, append otherwise. -/
def setPurposeStatus (purposes : List (ProcessingPurpose × ConsentStatus))
    (purpose : ProcessingPurpose) (status : ConsentStatus) :
    List (ProcessingPurpose × ConsentStatus) :=
  if purposes.any (fun q => q.1 == purpose) then
    purposes.map (fun q => if q.1 == purpose then (q.1, status) else q)
  else purposes ++ [(purpose, status)]

/-- ConsentManager.calculateGlobalPIIConsent (lines 596-612). -/
def calculateGlobalPIIConsent (purposes : List (ProcessingPurpose × ConsentStatus)) :
    ConsentStatus :=
  let values := purposes.map (fun q => q.2)
  if values.any (fun status => status == ConsentStatus.withdrawn) then .withdrawn
  else if values.any (fun status => status == ConsentStatus.denied) then .denied
  else if values.all (fun status => status == ConsentStatus.granted) then .granted
  else .pending

/-- ConsentManager.addAuditLogEntry (lines 634-641): push, then trim the
front so that at most 10,000 entries remain. -/
def addAuditLogEntry (auditLog : List AuditLogEntry) (entry : AuditLogEntry) :
    List AuditLogEntry :=
  let auditLog := auditLog ++ [entry]
  if auditLog.length > 10000 then auditLog.drop (auditLog.length - 10000)
  else auditLog

/-- Mutable state of a ConsentManager instance as used by the consent
claims: the per-user preferences map (association list in insertion order)
and the audit log.  Event listeners only log to the console and the data
subject request store is untouched by the operations under scrutiny. -/
structure ConsentManagerState where
  preferences : List (String × ConsentPreferences)
  auditLog : List AuditLogEntry
deriving DecidableEq, Repr

/-- Lookup `this.preferences.get(userId)`. -/
def getPreferences (st : ConsentManagerState) (userId : String) :
    Option ConsentPreferences :=
  ((st.preferences.find? (fun q => q.1 == userId))).map (fun q => q.2)

/-- Assignment `this.preferences.set(userId, prefs)`. -/
def setPreferences (prefs : List (String × ConsentPreferences))
    (userId : String) (p : ConsentPreferences) : List (String × ConsentPreferences) :=
  if prefs.any (fun q => q.1 == userId) then
    prefs.map (fun q => if q.1 == userId then (q.1, p) else q)
  else prefs ++ [(userId, p)]

/-- Instance configuration of a ConsentManager: jurisdiction of the privacy
notice and the consent expiry period (constructor parameters). -/
structure ConsentConfig where
  jurisdiction : Jurisdiction
  consentExpiryDays : Nat
deriving DecidableEq, Repr

/-- Compliance flags derived from the jurisdiction, as written into every
audit entry of recordConsent and withdrawConsent. -/
def complianceFor (j : Jurisdiction) : AuditCompliance :=
  { gdpr := j == .GDPR || j == .BOTH
    ccpa := j == .CCPA || j == .BOTH
    hipaa := false }

/-- Environment values consumed by one recordConsent or withdrawConsent
call: the current time and the freshly generated identifiers. -/
structure ConsentEnv where
  now : Nat
  freshConsentId : String
  freshAuditId : ProcessingPurpose → String

/-- Per-purpose loop body of ConsentManager.recordConsent (lines 149-184):
set the purpose status and append one audit entry (the consent change event
emission only notifies listeners). -/
def recordConsentStep (cfg : ConsentConfig) (env : ConsentEnv) (userId : String)
    (consentStatus : ConsentStatus) (ipAddress userAgent : String)
    (acc : ConsentPreferences × List AuditLogEntry) (purpose : ProcessingPurpose) :
    ConsentPreferences × List AuditLogEntry :=
  let oldStatus := (getPurposeStatus acc.1.purposes purpose).getD .pending
  let prefs := { acc.1 with purposes := setPurposeStatus acc.1.purposes purpose consentStatus }
  let entry : AuditLogEntry :=
    { id := env.freshAuditId purpose
      timestamp := env.now
      eventType := .consent_given
      userId := userId
      detailPurpose := some purpose
      detailConsentStatus := some consentStatus
      detailOldStatus := some oldStatus
      detailConsentId := some acc.1.id
      ipAddress := ipAddress
      userAgent := userAgent
      compliance := complianceFor cfg.jurisdiction }
  (prefs, addAuditLogEntry acc.2 entry)

/-- ConsentManager.recordConsent (lines 119-196).  Returns the updated
manager state together with the preferences value the method returns. -/
def recordConsent (cfg : ConsentConfig) (env : ConsentEnv) (st : ConsentManagerState)
    (userId : String) (purposes : List ProcessingPurpose) (consentGiven : Bool)
    (ipAddress userAgent : String) : ConsentManagerState × ConsentPreferences :=
  let consentStatus : ConsentStatus := if consentGiven then .granted else .denied
  let preferences : ConsentPreferences :=
    match getPreferences st userId with
    | some p => p
    | none =>
        { id := env.freshConsentId
          userId := userId
          purposes := []
          piiProcessing := .pending
          dataRetentionHours := 24 * cfg.consentExpiryDays
          consentTimestamp := env.now
          lastUpdated := env.now
          ipAddress := ipAddress
          userAgent := userAgent }
  let looped := purposes.foldl
    (recordConsentStep cfg env userId consentStatus ipAddress userAgent)
    (preferences, st.auditLog)
  let finalPrefs :=
    { looped.1 with
        piiProcessing := calculateGlobalPIIConsent looped.1.purposes
        lastUpdated := env.now
        ipAddress := ipAddress
        userAgent := userAgent }
  ({ preferences := setPreferences st.preferences userId finalPrefs
     auditLog := looped.2 },
   finalPrefs)

/-- Per-purpose loop body of ConsentManager.withdrawConsent (lines 220-254). -/
def withdrawConsentStep (cfg : ConsentConfig) (env : ConsentEnv) (userId : String)
    (ipAddress userAgent : String)
    (acc : ConsentPreferences × List AuditLogEntry) (purpose : ProcessingPurpose) :
    ConsentPreferences × List AuditLogEntry :=
  let oldStatus := getPurposeStatus acc.1.purposes purpose
  let prefs := { acc.1 with purposes := setPurposeStatus acc.1.purposes purpose .withdrawn }
  let entry : AuditLogEntry :=
    { id := env.freshAuditId purpose
      timestamp := env.now
      eventType := .consent_withdrawn
      userId := userId
      detailPurpose := some purpose
      detailConsentStatus := none
      detailOldStatus := oldStatus
      detailConsentId := some acc.1.id
      ipAddress := ipAddress
      userAgent := userAgent
      compliance := complianceFor cfg.jurisdiction }
  (prefs, addAuditLogEntry acc.2 entry)

/-- ConsentManager.withdrawConsent (lines 206-263): `none` when the user has
no stored preferences. -/
def withdrawConsent (cfg : ConsentConfig) (env : ConsentEnv) (st : ConsentManagerState)
    (userId : String) (purposes : List ProcessingPurpose)
    (ipAddress userAgent : String) :
    Option (ConsentManagerState × ConsentPreferences) :=
  match getPreferences st userId with
  | none => none
  | some preferences =>
      let looped := purposes.foldl
        (withdrawConsentStep cfg env userId ipAddress userAgent)
        (preferences, st.auditLog)
      let finalPrefs :=
        { looped.1 with
            piiProcessing := calculateGlobalPIIConsent looped.1.purposes
            lastUpdated := env.now }
      some
        ({ preferences := setPreferences st.preferences userId finalPrefs
           auditLog := looped.2 },
         finalPrefs)

/-- Claim-side restatement of the derived global PII-processing status of
C8: withdrawn if any purpose is withdrawn, otherwise denied if any purpose
is denied, otherwise granted if every purpose is granted, otherwise
pending. -/
def globalPIIConsentClaim (purposes : List (ProcessingPurpose × ConsentStatus)) :
    ConsentStatus :=
  if ∃ q ∈ purposes, q.2 = ConsentStatus.withdrawn then .withdrawn
  else if ∃ q ∈ purposes, q.2 = ConsentStatus.denied then .denied
  else if ∀ q ∈ purposes, q.2 = ConsentStatus.granted then .granted
  else .pending

/-! ## SecurityEngine (src/security/SecurityEngine.ts) -/

/-- DataClassification (src/types). -/
structure DataClassification where
  sensitivityLevel : SensitivityLevel
  detectedTypes : List PIIType
  confidence : ℚ
  scanTimestamp : Nat
  sanitized : Bool
deriving DecidableEq, Repr

/-- Log entry fields read and written by the engine: it reads `message` and
`level` and writes back `classification` and optionally `sanitizedMessage`. -/
structure LogEntry where
  level : String
  message : List Char
  classification : Option DataClassification
  sanitizedMessage : Option (List Char)
deriving DecidableEq, Repr

/-- SecurityScanResult (src/types). -/
structure SecurityScanResult where
  scanId : String
  scanTimestamp : Nat
  scannedText : List Char
  detections : List PIIDetectionResult
  riskScore : ℚ
  classification : DataClassification
  scanTimeMs : ℚ
  scanSuccessful : Bool
  scanErrors : List String
deriving DecidableEq, Repr

/-- Auto-sanitization section of the security policy: enabled flag and the
per-type thresholds record (absent keys are `none`). -/
structure AutoSanitizationPolicy where
  enabled : Bool
  thresholds : PIIType → Option ℚ

/-- SecurityPolicy fields consumed by scanLogEntry. -/
structure SecurityPolicy where
  minConfidenceThreshold : ℚ
  requireExplicitConsent : Bool
  autoSanitization : AutoSanitizationPolicy

/-- SecurityScanOptions (src/security/SecurityEngine.ts lines 28-39). -/
structure SecurityScanOptions where
  userId : Option String
  minConfidence : Option ℚ
  autoSanitize : Option Bool
  purpose : Option ProcessingPurpose
  skipConsentCheck : Option Bool

/-- Alert severities. -/
inductive AlertSeverity where
  | low
  | medium
  | high
  | critical
deriving DecidableEq, Repr

/-- Alert types. -/
inductive AlertType where
  | pii_detected
  | consent_violation
  | data_breach
  | policy_violation
deriving DecidableEq, Repr

/-- Details object of the alerts emitted by generateSecurityAlerts,
flattened to the fields it writes. -/
structure SecurityAlertDetails where
  scanId : String
  detectedTypes : List PIIType
  sensitivityLevel : Option SensitivityLevel
  detectionCount : Option Nat
  userId : String
deriving DecidableEq, Repr

/-- SecurityAlert (src/security/SecurityEngine.ts lines 65-73). -/
structure SecurityAlert where
  id : String
  severity : AlertSeverity
  alertType : AlertType
  message : String
  details : SecurityAlertDetails
  timestamp : Nat
  resolved : Bool
deriving DecidableEq, Repr

/-- Scan performance aggregates of the engine statistics. -/
structure ScanPerformanceStats where
  averageTimeMs : ℚ
  minTimeMs : ℚ
  maxTimeMs : ℚ
deriving DecidableEq, Repr

/-- Risk-level distribution record with its four fixed keys. -/
structure RiskLevelDistribution where
  publicCount : Nat
  internalCount : Nat
  confidentialCount : Nat
  restrictedCount : Nat
deriving DecidableEq, Repr

/-- Consent compliance tally of the engine statistics. -/
structure ConsentComplianceStats where
  totalUsers : Nat
  compliantScans : Nat
  nonCompliantScans : Nat
deriving DecidableEq, Repr

/-- SecurityEngineStatistics (lines 44-60); the dynamic detection-count
record is an association list in key insertion order. -/
structure SecurityEngineStatistics where
  totalScans : Nat
  totalPIIDetected : Nat
  totalSanitizations : Nat
  scanPerformance : ScanPerformanceStats
  detectionStats : List (PIIType × Nat)
  riskLevelDistribution : RiskLevelDistribution
  consentCompliance : ConsentComplianceStats
deriving DecidableEq, Repr

/-- Mutable state of a SecurityEngine instance: statistics, the alerts map
and the scan history map (association lists in insertion order). -/
structure SecurityEngineState where
  statistics : SecurityEngineStatistics
  alerts : List (String × SecurityAlert)
  scanHistory : List (String × List SecurityScanResult)
deriving DecidableEq, Repr

/-- Environment values consumed by one scanLogEntry call: the generated scan
id, the wall clock, the measured scan duration, and the identifiers of the
up to two alerts the call may create. -/
structure ScanEnv where
  scanId : String
  now : Nat
  scanTimeMs : ℚ
  alertIdHigh : String
  alertIdMedium : String

/-- JS truthiness of an optional string (an absent or empty string is
falsy). -/
def strTruthy (o : Option String) : Bool :=
  match o with
  | some s => s != ""
  | none => false

/-- JS `a || b` on an optional number: an absent or zero value falls back. -/
def jsNumOr (o : Option ℚ) (d : ℚ) : ℚ :=
  match o with
  | some x => if x == 0 then d else x
  | none => d

/-- JS `a || b` on an optional string (for `userId || 'unknown'`). -/
def jsStrOr (o : Option String) (d : String) : String :=
  match o with
  | some s => if s == "" then d else s
  | none => d

/-- Type severity base of SecurityEngine.calculateRiskScore (lines 520-542);
the switch default covers the custom type. -/
def typeRisk : PIIType → ℚ
  | .creditCard => 9/10
  | .ssn => 9/10
  | .password => 8/10
  | .apiKey => 8/10
  | .jwt => 8/10
  | .email => 6/10
  | .phone => 6/10
  | .ipAddress => 4/10
  | .custom => 5/10

/-- SecurityEngine.calculateRiskScore (lines 512-558). -/
def calculateRiskScore (detections : List PIIDetectionResult) (logLevel : String) : ℚ :=
  if detections.length = 0 then 0
  else
    let riskScore := detections.foldl
      (fun riskScore detection => max riskScore (typeRisk detection.type * detection.confidence)) 0
    let logLevelMultiplier : ℚ :=
      if logLevel == "error" then 12/10 else if logLevel == "warn" then 11/10 else 1
    let riskScore := riskScore * logLevelMultiplier
    let riskScore :=
      if detections.length > 1 then
        min 1 (riskScore * (1 + ((detections.length - 1 : ℕ) : ℚ) * (1/10)))
      else riskScore
    min 1 riskScore

/-- SecurityEngine.classifyData (lines 566-584). -/
def classifyData (detections : List PIIDetectionResult) (riskScore : ℚ) (now : Nat) :
    DataClassification :=
  let sensitivityLevel : SensitivityLevel :=
    if decide (riskScore ≥ 8/10) ||
        detections.any (fun d =>
          [PIIType.creditCard, PIIType.ssn, PIIType.password].contains d.type) then
      .restrictedLevel
    else if decide (riskScore ≥ 6/10) ||
        detections.any (fun d => [PIIType.apiKey, PIIType.jwt].contains d.type) then
      .confidentialLevel
    else if decide (riskScore ≥ 3/10) || decide (detections.length > 0) then
      .internalLevel
    else .publicLevel
  { sensitivityLevel := sensitivityLevel
    detectedTypes := detections.map (fun d => d.type)
    confidence :=
      match detections with
      | [] => 0
      | d :: rest => (rest.map (fun e => e.confidence)).foldl max d.confidence
    scanTimestamp := now
    sanitized := false }

/-- SecurityEngine.applySecurityPolicyFiltering (lines 489-504): drop
detections below the global threshold or below their type's configured
auto-sanitization threshold. -/
def applySecurityPolicyFiltering (policy : SecurityPolicy)
    (detections : List PIIDetectionResult) : List PIIDetectionResult :=
  detections.filter (fun detection =>
    decide (policy.minConfidenceThreshold ≤ detection.confidence) &&
      (match policy.autoSanitization.thresholds detection.type with
       | some threshold => decide (threshold ≤ detection.confidence)
       | none => true))

/-- SecurityEngine.shouldAutoSanitize (lines 591-600). -/
def shouldAutoSanitize (policy : SecurityPolicy)
    (detections : List PIIDetectionResult) : Bool :=
  if !policy.autoSanitization.enabled then false
  else detections.any (fun detection =>
    match policy.autoSanitization.thresholds detection.type with
    | some threshold => decide (threshold ≤ detection.confidence)
    | none => false)

/-- Insertion into the alerts map (`this.alerts.set(alert.id, alert)`). -/
def setAlert (alerts : List (String × SecurityAlert)) (alert : SecurityAlert) :
    List (String × SecurityAlert) :=
  if alerts.any (fun q => q.1 == alert.id) then
    alerts.map (fun q => if q.1 == alert.id then (q.1, alert) else q)
  else alerts ++ [(alert.id, alert)]

/-- SecurityEngine.generateSecurityAlerts (lines 609-654): a high alert for
a restricted classification and a medium alert for three or more
detections, independently. -/
def generateSecurityAlerts (env : ScanEnv) (alerts : List (String × SecurityAlert))
    (scanId : String) (detections : List PIIDetectionResult)
    (classification : DataClassification) (userId : Option String) :
    List (String × SecurityAlert) :=
  let alerts :=
    if classification.sensitivityLevel == .restrictedLevel then
      setAlert alerts
        { id := env.alertIdHigh
          severity := .high
          alertType := .pii_detected
          message := "High-risk PII detected in scan " ++ scanId
          details :=
            { scanId := scanId
              detectedTypes := classification.detectedTypes
              sensitivityLevel := some classification.sensitivityLevel
              detectionCount := none
              userId := jsStrOr userId "unknown" }
          timestamp := env.now
          resolved := false }
    else alerts
  if decide (detections.length ≥ 3) then
    setAlert alerts
      { id := env.alertIdMedium
        severity := .medium
        alertType := .pii_detected
        message := "Multiple PII types detected in single scan: " ++
          toString detections.length ++ " types found"
        details :=
          { scanId := scanId
            detectedTypes := classification.detectedTypes
            sensitivityLevel := none
            detectionCount := some detections.length
            userId := jsStrOr userId "unknown" }
        timestamp := env.now
        resolved := false }
  else alerts

/-- Detection count bump of updateStatistics
(`detectionStats[type] = (detectionStats[type] || 0) + 1`). -/
def bumpDetectionStat (ds : List (PIIType × Nat)) (t : PIIType) : List (PIIType × Nat) :=
  if ds.any (fun q => q.1 == t) then
    ds.map (fun q => if q.1 == t then (q.1, q.2 + 1) else q)
  else ds ++ [(t, 1)]

/-- Risk-level distribution bump of updateStatistics. -/
def bumpRiskLevel (dist : RiskLevelDistribution) : SensitivityLevel → RiskLevelDistribution
  | .publicLevel => { dist with publicCount := dist.publicCount + 1 }
  | .internalLevel => { dist with internalCount := dist.internalCount + 1 }
  | .confidentialLevel => { dist with confidentialCount := dist.confidentialCount + 1 }
  | .restrictedLevel => { dist with restrictedCount := dist.restrictedCount + 1 }

/-- SecurityEngine.updateStatistics (lines 661-689). -/
def updateStatistics (stats : SecurityEngineStatistics)
    (scanResult : SecurityScanResult) (detections : List PIIDetectionResult) :
    SecurityEngineStatistics :=
  let totalScans := stats.totalScans + 1
  { stats with
      totalScans := totalScans
      totalPIIDetected := stats.totalPIIDetected + detections.length
      scanPerformance :=
        { averageTimeMs :=
            (stats.scanPerformance.averageTimeMs * ((totalScans : ℚ) - 1) +
              scanResult.scanTimeMs) / (totalScans : ℚ)
          minTimeMs := min stats.scanPerformance.minTimeMs scanResult.scanTimeMs
          maxTimeMs := max stats.scanPerformance.maxTimeMs scanResult.scanTimeMs }
      detectionStats := detections.foldl
        (fun ds detection => bumpDetectionStat ds detection.type) stats.detectionStats
      riskLevelDistribution := bumpRiskLevel stats.riskLevelDistribution
        scanResult.classification.sensitivityLevel }

/-- SecurityEngine.updateConsentComplianceStats (lines 695-701), lifted to
the engine state. -/
def tallyConsentCompliance (st : SecurityEngineState) (compliant : Bool) :
    SecurityEngineState :=
  { st with statistics := { st.statistics with consentCompliance :=
      if compliant then
        { st.statistics.consentCompliance with
            compliantScans := st.statistics.consentCompliance.compliantScans + 1 }
      else
        { st.statistics.consentCompliance with
            nonCompliantScans := st.statistics.consentCompliance.nonCompliantScans + 1 } } }

/-- SecurityEngine.storeScanResult (lines 708-721): append under the scan id
and evict the oldest scan id when more than 1,000 are stored. -/
def storeScanResult (history : List (String × List SecurityScanResult))
    (scanId : String) (scanResult : SecurityScanResult) :
    List (String × List SecurityScanResult) :=
  let history :=
    if history.any (fun q => q.1 == scanId) then
      history.map (fun q => if q.1 == scanId then (q.1, q.2 ++ [scanResult]) else q)
    else history ++ [(scanId, [scanResult])]
  if history.length > 1000 then history.drop 1 else history

/-- SecurityEngine.createFailedScanResult (lines 731-754).  The JS
`scanTimeMs || 0` agrees with `getD 0` because the only falsy rational the
option can hold is 0 itself. -/
def createFailedScanResult (scanId : String) (scannedText : List Char)
    (errors : List String) (scanTimeMs : Option ℚ) (now : Nat) : SecurityScanResult :=
  { scanId := scanId
    scanTimestamp := now
    scannedText := scannedText
    detections := []
    riskScore := 0
    classification :=
      { sensitivityLevel := .publicLevel
        detectedTypes := []
        confidence := 0
        scanTimestamp := now
        sanitized := false }
    scanTimeMs := scanTimeMs.getD 0
    scanSuccessful := false
    scanErrors := errors }

/-- Body of SecurityEngine.scanLogEntry after the consent gate (lines
169-219 and the surrounding catch): run detection, filter by policy, score,
classify, raise alerts, optionally sanitize, write back to the log entry,
update statistics, store history.  `detect` abstracts
`this.piiDetector.scanText` and returns an error for an exception escaping
the detector (a custom pattern validator may throw); the remaining pipeline
steps are total.  A detection error is converted by the catch block into a
failed result carrying the measured scan time. -/
def runDetectionPipeline
    (detect : List Char → ℚ → Except String (List PIIDetectionResult))
    (sanitize : List Char → List PIIDetectionResult → SanitizationResult)
    (policy : SecurityPolicy) (env : ScanEnv) (consentValid : Bool)
    (st : SecurityEngineState) (entry : LogEntry) (opts : SecurityScanOptions) :
    SecurityScanResult × SecurityEngineState × LogEntry :=
  match detect entry.message (jsNumOr opts.minConfidence policy.minConfidenceThreshold) with
  | .error errorMessage =>
      (createFailedScanResult env.scanId entry.message [errorMessage]
        (some env.scanTimeMs) env.now, st, entry)
  | .ok detections =>
      let filtered := applySecurityPolicyFiltering policy detections
      let riskScore := calculateRiskScore filtered entry.level
      let classification := classifyData filtered riskScore env.now
      let st := { st with alerts :=
        generateSecurityAlerts env st.alerts env.scanId filtered classification opts.userId }
      let sanitizationResult :=
        if (opts.autoSanitize != some false) && policy.autoSanitization.enabled &&
            consentValid && shouldAutoSanitize policy filtered then
          some (sanitize entry.message filtered)
        else none
      let scanResult : SecurityScanResult :=
        { scanId := env.scanId
          scanTimestamp := env.now
          scannedText := entry.message
          detections := filtered
          riskScore := riskScore
          classification := classification
          scanTimeMs := env.scanTimeMs
          scanSuccessful := true
          scanErrors := [] }
      let entry :=
        { entry with
            sanitizedMessage :=
              match sanitizationResult with
              | some sr => if sr.wasModified then some sr.sanitizedText else entry.sanitizedMessage
              | none => entry.sanitizedMessage
            classification := some classification }
      let st := { st with statistics := updateStatistics st.statistics scanResult filtered }
      let st := { st with scanHistory := storeScanResult st.scanHistory env.scanId scanResult }
      (scanResult, st, entry)

/-- SecurityEngine.scanLogEntry (lines 146-227).  `verify` abstracts
`this.consentManager.verifyConsent(userId, purpose).isValid`.  Returns the
scan result, the new engine state and the (possibly written-back) log
entry. -/
def scanLogEntry
    (detect : List Char → ℚ → Except String (List PIIDetectionResult))
    (sanitize : List Char → List PIIDetectionResult → SanitizationResult)
    (verify : String → ProcessingPurpose → Bool)
    (policy : SecurityPolicy) (env : ScanEnv)
    (st : SecurityEngineState) (entry : LogEntry) (opts : SecurityScanOptions) :
    SecurityScanResult × SecurityEngineState × LogEntry :=
  if strTruthy opts.userId && !(opts.skipConsentCheck == some true) then
    if verify (opts.userId.getD "") (opts.purpose.getD .logging) then
      runDetectionPipeline detect sanitize policy env true
        (tallyConsentCompliance st true) entry opts
    else
      if policy.requireExplicitConsent then
        (createFailedScanResult env.scanId entry.message
          ["Consent not provided or invalid"] none env.now,
         tallyConsentCompliance st false, entry)
      else
        runDetectionPipeline detect sanitize policy env false
          (tallyConsentCompliance st false) entry opts
  else
    runDetectionPipeline detect sanitize policy env true st entry opts

/-- Clamp to the unit interval, used by the claim-side risk formula. -/
def clamp01 (x : ℚ) : ℚ := min 1 (max 0 x)

/-- Claim-side restatement of the risk score of C4: 0 for no detections;
otherwise the maximum of type-severity base times confidence, then the
log-level multiplier, then for more than one detection the count inflation,
each step clamped to the unit interval. -/
def riskScoreClaim (detections : List PIIDetectionResult) (logLevel : String) : ℚ :=
  match detections with
  | [] => 0
  | d :: rest =>
      let baseline := clamp01
        ((rest.map (fun e => typeRisk e.type * e.confidence)).foldl max
          (typeRisk d.type * d.confidence))
      let logLevelMultiplier : ℚ :=
        if logLevel == "error" then 12/10 else if logLevel == "warn" then 11/10 else 1
      let afterLevel := clamp01 (baseline * logLevelMultiplier)
      if rest.length = 0 then afterLevel
      else clamp01 (afterLevel * (1 + ((d :: rest).length - 1 : ℕ) * (1/10)))

/-- Claim-side restatement of the sensitivity level of C5. -/
def sensitivityLevelClaim (detections : List PIIDetectionResult) (riskScore : ℚ) :
    SensitivityLevel :=
  if 8/10 ≤ riskScore ∨ ∃ d ∈ detections,
      d.type = PIIType.creditCard ∨ d.type = PIIType.ssn ∨ d.type = PIIType.password then
    .restrictedLevel
  else if 6/10 ≤ riskScore ∨ ∃ d ∈ detections,
      d.type = PIIType.apiKey ∨ d.type = PIIType.jwt then
    .confidentialLevel
  else if 3/10 ≤ riskScore ∨ detections ≠ [] then .internalLevel
  else .publicLevel

/-! ## Concrete sample values used by witnesses and counterexamples -/

/-- Zeroed engine statistics. -/
def sampleStatistics : SecurityEngineStatistics :=
  { totalScans := 0
    totalPIIDetected := 0
    totalSanitizations := 0
    scanPerformance := { averageTimeMs := 0, minTimeMs := 0, maxTimeMs := 0 }
    detectionStats := []
    riskLevelDistribution :=
      { publicCount := 0, internalCount := 0, confidentialCount := 0, restrictedCount := 0 }
    consentCompliance := { totalUsers := 0, compliantScans := 0, nonCompliantScans := 0 } }

/-- Fresh engine state. -/
def sampleEngineState : SecurityEngineState :=
  { statistics := sampleStatistics, alerts := [], scanHistory := [] }

/-- Policy requiring explicit consent, without per-type thresholds. -/
def samplePolicy : SecurityPolicy :=
  { minConfidenceThreshold := 7/10
    requireExplicitConsent := true
    autoSanitization := { enabled := true, thresholds := fun _ => none } }

/-- Environment of one sample scan. -/
def sampleScanEnv : ScanEnv :=
  { scanId := "s1", now := 5, scanTimeMs := 2, alertIdHigh := "ah", alertIdMedium := "am" }

/-- An error-level log entry. -/
def sampleEntry : LogEntry :=
  { level := "error", message := "hello".toList, classification := none,
    sanitizedMessage := none }

/-- Scan options carrying a user id and the defaults otherwise. -/
def sampleOpts : SecurityScanOptions :=
  { userId := some "u", minConfidence := none, autoSanitize := none, purpose := none,
    skipConsentCheck := none }

/-- Detector standing for a scan whose custom validator throws. -/
def errDetect : List Char → ℚ → Except String (List PIIDetectionResult) :=
  fun _ _ => .error "boom"

/-- Detector finding nothing. -/
def okDetect : List Char → ℚ → Except String (List PIIDetectionResult) :=
  fun _ _ => .ok []

/-- Sanitizer returning the text unchanged. -/
def passSanitize : List Char → List PIIDetectionResult → SanitizationResult :=
  fun t _ =>
    { originalText := t, sanitizedText := t, sanitizedDetections := [],
      wasModified := false }

/-- Consent manager configuration of the samples. -/
def sampleConsentConfig : ConsentConfig :=
  { jurisdiction := .GDPR, consentExpiryDays := 365 }

/-- Environment of one sample consent operation. -/
def sampleConsentEnv : ConsentEnv :=
  { now := 0, freshConsentId := "c1", freshAuditId := fun _ => "a1" }

/-- Stored preferences of user `u` with logging already granted. -/
def samplePrefs : ConsentPreferences :=
  { id := "c0", userId := "u", purposes := [(.logging, .granted)],
    piiProcessing := .granted, dataRetentionHours := 24, consentTimestamp := 0,
    lastUpdated := 0, ipAddress := "ip", userAgent := "ua" }

/-- Consent manager state holding `samplePrefs` and an empty audit log. -/
def sampleConsentState : ConsentManagerState :=
  { preferences := [("u", samplePrefs)], auditLog := [] }

/-- Consent manager state with no users. -/
def emptyConsentState : ConsentManagerState :=
  { preferences := [], auditLog := [] }

/-! ## Theorems -/

/-! ### Helper lemmas for C1 -/

theorem detectionOverlaps_symm (a b : PIIDetectionResult) :
    detectionOverlaps a b = detectionOverlaps b a := by
  simp [detectionOverlaps, Bool.or_comm]

theorem greedySelect_fold_pairwise (l acc : List PIIDetectionResult)
    (hacc : acc.Pairwise (fun a b => detectionOverlaps a b = false)) :
    (l.foldl (fun filtered detection =>
        if filtered.any (fun existing => detectionOverlaps detection existing) then filtered
        else filtered ++ [detection]) acc).Pairwise
      (fun a b => detectionOverlaps a b = false) := by
  induction l generalizing acc with
  | nil => exact hacc
  | cons d t ih =>
      simp only [List.foldl_cons]
      by_cases h : acc.any (fun existing => detectionOverlaps d existing) = true
      · simpa [h] using ih acc hacc
      · have hall : ∀ e ∈ acc, detectionOverlaps d e = false := by
          intro e he
          by_contra hne
          exact h (List.any_eq_true.mpr ⟨e, he, by simpa using hne⟩)
        have happ : (acc ++ [d]).Pairwise (fun a b => detectionOverlaps a b = false) :=
          List.pairwise_append.mpr
            ⟨hacc, by simp, by
              intro a ha b hb
              simp only [List.mem_singleton] at hb
              subst hb
              rw [detectionOverlaps_symm]
              exact hall a ha⟩
        simpa [h] using ih (acc ++ [d]) happ

theorem greedySelect_pairwise (l : List PIIDetectionResult) :
    (greedySelect l).Pairwise (fun a b => detectionOverlaps a b = false) :=
  greedySelect_fold_pairwise l [] (by simp)

/-- Claim C1: for every input (hence for every candidate detection list
produced by a text and a confidence threshold), the list returned by
PIIDetector.scanText has pairwise non-overlapping spans (touching allowed)
and is sorted by start index ascending, and it is exactly (a permutation
carrying) the greedy selection over the candidates ordered by confidence
descending then start index ascending, accepting only detections that
overlap no already accepted one. -/
theorem claim_C1_scanText_overlap_free_sorted (minConfidence : ℚ)
    (candidates : List PIIDetectionResult) :
    List.Pairwise (fun a b => detectionOverlaps a b = false)
      (scanTextFromCandidates minConfidence candidates) ∧
    List.Pairwise (fun a b => a.startIndex ≤ b.startIndex)
      (scanTextFromCandidates minConfidence candidates) ∧
    (scanTextFromCandidates minConfidence candidates).Perm
      (if (filterByMinConfidence minConfidence candidates).length ≤ 1 then
        filterByMinConfidence minConfidence candidates
      else greedySelect
        ((filterByMinConfidence minConfidence candidates).mergeSort confDescLe)) := by
  have hsymm : ∀ {x y : PIIDetectionResult},
      detectionOverlaps x y = false → detectionOverlaps y x = false := by
    intro x y hxy
    rw [detectionOverlaps_symm]
    exact hxy
  have htrans : ∀ a b c : PIIDetectionResult,
      startAscLe a b = true → startAscLe b c = true → startAscLe a c = true := by
    intro a b c hab hbc
    simp only [startAscLe, decide_eq_true_eq] at *
    omega
  have htotal : ∀ a b : PIIDetectionResult, (startAscLe a b || startAscLe b a) = true := by
    intro a b
    simp only [startAscLe, Bool.or_eq_true, decide_eq_true_eq]
    omega
  unfold scanTextFromCandidates removeOverlappingDetections
  set ds := filterByMinConfidence minConfidence candidates with hds
  by_cases h : ds.length ≤ 1
  · rw [if_pos h, if_pos h]
    match ds, h with
    | [], _ => exact ⟨by simp, by simp, .refl _⟩
    | [d], _ => exact ⟨by simp, by simp, .refl _⟩
  · rw [if_neg h, if_neg h]
    refine ⟨?_, ?_, List.mergeSort_perm _ _⟩
    · exact ((List.mergeSort_perm (greedySelect (ds.mergeSort confDescLe))
        startAscLe).pairwise_iff hsymm).mpr (greedySelect_pairwise _)
    · exact (List.sorted_mergeSort htrans htotal
        (greedySelect (ds.mergeSort confDescLe))).imp (fun hab => by
          simpa [startAscLe] using hab)

/-! ### Helper lemmas for C2 -/

theorem interleaveFrom_cons (repl : PIIDetectionResult → List Char)
    (text : List Char) (pos : Nat) (d : PIIDetectionResult)
    (rest : List PIIDetectionResult) :
    interleaveFrom repl text pos (d :: rest) =
      (text.drop pos).take (d.startIndex - pos) ++ repl d ++
        interleaveFrom repl text d.endIndex rest := rfl

theorem foldr_splice_eq_interleave (repl : PIIDetectionResult → List Char)
    (text : List Char) (p : Nat) (asc : List PIIDetectionResult)
    (hchain : asc.Pairwise (fun a b => a.endIndex ≤ b.startIndex))
    (hrange : ∀ d ∈ asc,
      p ≤ d.startIndex ∧ d.startIndex < d.endIndex ∧ d.endIndex ≤ text.length) :
    asc.foldr (fun d t => spliceDetection repl t d) text =
      text.take p ++ interleaveFrom repl text p asc := by
  induction asc generalizing p with
  | nil => simp [interleaveFrom]
  | cons d rest ih =>
      obtain ⟨hp, hlt, hle⟩ := hrange d (by simp)
      have hnext : ∀ e ∈ rest, d.endIndex ≤ e.startIndex :=
        fun e he => List.rel_of_pairwise_cons hchain he
      have ihd := ih d.endIndex hchain.of_cons (fun e he =>
        ⟨hnext e he, (hrange e (by simp [he])).2.1, (hrange e (by simp [he])).2.2⟩)
      rw [List.foldr_cons, ihd, interleaveFrom_cons]
      unfold spliceDetection
      have hlen : (text.take d.endIndex).length = d.endIndex := by
        rw [List.length_take]
        omega
      have htake : (text.take d.endIndex ++ interleaveFrom repl text d.endIndex rest).take
          d.startIndex = text.take d.startIndex := by
        rw [List.take_append_of_le_length (by omega), List.take_take,
          min_eq_left hlt.le]
      have hdrop : (text.take d.endIndex ++ interleaveFrom repl text d.endIndex rest).drop
          d.endIndex = interleaveFrom repl text d.endIndex rest :=
        List.drop_left' hlen
      rw [htake, hdrop]
      have hsplit : text.take d.startIndex =
          text.take p ++ (text.drop p).take (d.startIndex - p) := by
        rw [← List.take_add]
        congr 1
        omega
      rw [hsplit]
      simp [List.append_assoc]

theorem startDescLe_trans (a b c : PIIDetectionResult) :
    startDescLe a b = true → startDescLe b c = true → startDescLe a c = true := by
  simp only [startDescLe, decide_eq_true_eq]
  omega

theorem startDescLe_total (a b : PIIDetectionResult) :
    (startDescLe a b || startDescLe b a) = true := by
  simp only [startDescLe, Bool.or_eq_true, decide_eq_true_eq]
  omega

/-- Claim C2: for every text and non-empty list of pairwise non-overlapping,
in-range detections, sanitizeText processes the detections sorted by start
index descending (right-to-left) so that earlier offsets stay valid, reports
`wasModified = true`, and produces exactly the original text with every
detected span replaced by its strategy value (`repl`) and every character
outside the detected spans preserved at its relative position, as expressed
by `interleaveFrom` over the ascending ordering of the detections. -/
theorem claim_C2_sanitizeText_replaces_spans
    (repl : PIIDetectionResult → List Char) (text : List Char)
    (ds : List PIIDetectionResult) (hne : ds ≠ [])
    (hrange : ∀ d ∈ ds, d.startIndex < d.endIndex ∧ d.endIndex ≤ text.length)
    (hnov : ds.Pairwise (fun a b =>
      a.endIndex ≤ b.startIndex ∨ b.endIndex ≤ a.startIndex)) :
    ∃ asc : List PIIDetectionResult,
      asc.Perm ds ∧
      asc.Pairwise (fun a b => a.startIndex ≤ b.startIndex) ∧
      (sanitizeText repl text ds).sanitizedText = interleaveFrom repl text 0 asc ∧
      (sanitizeText repl text ds).wasModified = true := by
  have hlen0 : ¬ ds.length = 0 := by
    simpa [List.length_eq_zero] using hne
  set L := ds.mergeSort startDescLe with hL
  have hLperm : L.Perm ds := List.mergeSort_perm ds startDescLe
  have hascperm : L.reverse.Perm ds := (List.reverse_perm L).trans hLperm
  have hLsorted : L.Pairwise (fun a b => startDescLe a b = true) :=
    List.sorted_mergeSort startDescLe_trans startDescLe_total ds
  have hascsorted : L.reverse.Pairwise (fun a b => a.startIndex ≤ b.startIndex) := by
    rw [List.pairwise_reverse]
    exact hLsorted.imp (fun hab => by simpa [startDescLe] using hab)
  have hascnov : L.reverse.Pairwise (fun a b =>
      a.endIndex ≤ b.startIndex ∨ b.endIndex ≤ a.startIndex) :=
    (hascperm.pairwise_iff (fun hxy => hxy.symm)).mpr hnov
  have hascrange : ∀ d ∈ L.reverse,
      d.startIndex < d.endIndex ∧ d.endIndex ≤ text.length := by
    intro d hd
    exact hrange d (hascperm.mem_iff.mp hd)
  have hchain : L.reverse.Pairwise (fun a b => a.endIndex ≤ b.startIndex) := by
    have hand := List.Pairwise.and hascsorted hascnov
    refine hand.imp_of_mem ?_
    intro a b ha hb hab
    rcases hab.2 with h | h
    · exact h
    · have hblt := (hascrange b hb).1
      omega
  refine ⟨L.reverse, hascperm, hascsorted, ?_, ?_⟩
  · have hfold : (sanitizeText repl text ds).sanitizedText =
        L.foldl (spliceDetection repl) text := by
      simp [sanitizeText, hlen0]
    rw [hfold, ← List.reverse_reverse L, List.foldl_reverse]
    have := foldr_splice_eq_interleave repl text 0 L.reverse hchain
      (fun d hd => ⟨Nat.zero_le _, (hascrange d hd).1, (hascrange d hd).2⟩)
    simpa using this
  · simp [sanitizeText, hlen0]

/-- Witness for C2 at a concrete input: text `abcdefgh` with two detections
spanning `[5,7)` and `[1,3)` replaced by `U` and `VW` respectively. -/
theorem claim_C2_witness :
    ∃ asc : List PIIDetectionResult,
      asc.Perm
        [{ type := .email, value := ['f', 'g'], startIndex := 5, endIndex := 7,
           confidence := 9/10, patternName := "e", highConfidence := true },
         { type := .ssn, value := ['b', 'c'], startIndex := 1, endIndex := 3,
           confidence := 8/10, patternName := "s", highConfidence := true }] ∧
      asc.Pairwise (fun a b => a.startIndex ≤ b.startIndex) ∧
      (sanitizeText (fun d => if d.startIndex = 1 then ['U'] else ['V', 'W'])
        "abcdefgh".toList
        [{ type := .email, value := ['f', 'g'], startIndex := 5, endIndex := 7,
           confidence := 9/10, patternName := "e", highConfidence := true },
         { type := .ssn, value := ['b', 'c'], startIndex := 1, endIndex := 3,
           confidence := 8/10, patternName := "s", highConfidence := true }]).sanitizedText =
        interleaveFrom (fun d => if d.startIndex = 1 then ['U'] else ['V', 'W'])
          "abcdefgh".toList 0 asc ∧
      (sanitizeText (fun d => if d.startIndex = 1 then ['U'] else ['V', 'W'])
        "abcdefgh".toList
        [{ type := .email, value := ['f', 'g'], startIndex := 5, endIndex := 7,
           confidence := 9/10, patternName := "e", highConfidence := true },
         { type := .ssn, value := ['b', 'c'], startIndex := 1, endIndex := 3,
           confidence := 8/10, patternName := "s", highConfidence := true }]).wasModified =
        true :=
  claim_C2_sanitizeText_replaces_spans _ _ _ (by decide) (by decide) (by decide)

/-- Claim C3: with a (truthy) userId and no skipConsentCheck, an invalid
consent verification under a policy requiring explicit consent makes
scanLogEntry return, without running PII detection (the result is a value
independent of the detector), a failed result with empty detections, zero
risk, public sensitivity and the single error "Consent not provided or
invalid", with no exception reaching the caller (the embedding is total);
the only state change is the non-compliance tally.  When the policy does
not require explicit consent, the scan continues through the detection
pipeline with the invalid-consent flag, only the compliance tally having
been affected. -/
theorem claim_C3_consent_hard_gate
    (detect : List Char → ℚ → Except String (List PIIDetectionResult))
    (sanitize : List Char → List PIIDetectionResult → SanitizationResult)
    (verify : String → ProcessingPurpose → Bool)
    (policy : SecurityPolicy) (env : ScanEnv)
    (st : SecurityEngineState) (entry : LogEntry) (opts : SecurityScanOptions)
    (u : String) (hu : opts.userId = some u) (hne : u ≠ "")
    (hskip : opts.skipConsentCheck ≠ some true)
    (hinvalid : verify u (opts.purpose.getD .logging) = false) :
    (policy.requireExplicitConsent = true →
      scanLogEntry detect sanitize verify policy env st entry opts =
        (createFailedScanResult env.scanId entry.message
          ["Consent not provided or invalid"] none env.now,
         tallyConsentCompliance st false, entry) ∧
      (scanLogEntry detect sanitize verify policy env st entry opts).1.scanSuccessful
        = false ∧
      (scanLogEntry detect sanitize verify policy env st entry opts).1.detections = [] ∧
      (scanLogEntry detect sanitize verify policy env st entry opts).1.riskScore = 0 ∧
      (scanLogEntry detect sanitize verify policy env st entry
        opts).1.classification.sensitivityLevel = .publicLevel ∧
      (scanLogEntry detect sanitize verify policy env st entry opts).1.scanErrors =
        ["Consent not provided or invalid"]) ∧
    (policy.requireExplicitConsent = false →
      scanLogEntry detect sanitize verify policy env st entry opts =
        runDetectionPipeline detect sanitize policy env false
          (tallyConsentCompliance st false) entry opts) := by
  have hskipb : (opts.skipConsentCheck == some true) = false := by
    cases hsk : opts.skipConsentCheck with
    | none => rfl
    | some b =>
        cases b with
        | false => rfl
        | true => exact absurd hsk hskip
  have hgate : (strTruthy opts.userId && !(opts.skipConsentCheck == some true)) = true := by
    rw [hskipb, hu]
    simp [strTruthy, hne]
  have huid : opts.userId.getD "" = u := by
    rw [hu]
    rfl
  constructor
  · intro hreq
    have heq : scanLogEntry detect sanitize verify policy env st entry opts =
        (createFailedScanResult env.scanId entry.message
          ["Consent not provided or invalid"] none env.now,
         tallyConsentCompliance st false, entry) := by
      unfold scanLogEntry
      rw [hgate, huid]
      simp [hinvalid, hreq]
    refine ⟨heq, ?_, ?_, ?_, ?_, ?_⟩ <;> rw [heq] <;> rfl
  · intro hreq
    unfold scanLogEntry
    rw [hgate, huid]
    simp [hinvalid, hreq]

/-! ### Helper lemma for C9 -/

theorem runDetectionPipeline_failed
    (detect : List Char → ℚ → Except String (List PIIDetectionResult))
    (sanitize : List Char → List PIIDetectionResult → SanitizationResult)
    (policy : SecurityPolicy) (env : ScanEnv) (consentValid : Bool)
    (st : SecurityEngineState) (entry : LogEntry) (opts : SecurityScanOptions)
    (hfail : (runDetectionPipeline detect sanitize policy env consentValid st entry
      opts).1.scanSuccessful = false) :
    (runDetectionPipeline detect sanitize policy env consentValid st entry opts).2.1 = st ∧
    (runDetectionPipeline detect sanitize policy env consentValid st entry opts).2.2 =
      entry := by
  unfold runDetectionPipeline at hfail ⊢
  cases hdet : detect entry.message (jsNumOr opts.minConfidence policy.minConfidenceThreshold) with
  | error e => exact ⟨rfl, rfl⟩
  | ok detections =>
      rw [hdet] at hfail
      simp at hfail

/-- Claim C9: every scan that ends in a failed result (consent hard gate or
caught detection exception) leaves the engine state unchanged except for
the consent-compliance tally — no alert is added, nothing is appended to
the scan history (so the failed result can never be returned by
getScanHistory nor counted by the health check), and the statistics other
than the compliance tally (total scans, detection statistics, performance
statistics, risk-level distribution) are untouched — and the caller log
entry is not written back (neither classification nor sanitizedMessage). -/
theorem claim_C9_failed_scan_preserves_state
    (detect : List Char → ℚ → Except String (List PIIDetectionResult))
    (sanitize : List Char → List PIIDetectionResult → SanitizationResult)
    (verify : String → ProcessingPurpose → Bool)
    (policy : SecurityPolicy) (env : ScanEnv)
    (st : SecurityEngineState) (entry : LogEntry) (opts : SecurityScanOptions)
    (hfail : (scanLogEntry detect sanitize verify policy env st entry
      opts).1.scanSuccessful = false) :
    (scanLogEntry detect sanitize verify policy env st entry opts).2.1.alerts =
      st.alerts ∧
    (scanLogEntry detect sanitize verify policy env st entry opts).2.1.scanHistory =
      st.scanHistory ∧
    (scanLogEntry detect sanitize verify policy env st entry opts).2.1.statistics =
      { st.statistics with consentCompliance :=
          (scanLogEntry detect sanitize verify policy env st entry
            opts).2.1.statistics.consentCompliance } ∧
    (scanLogEntry detect sanitize verify policy env st entry opts).2.2 = entry := by
  by_cases h1 : (strTruthy opts.userId && !(opts.skipConsentCheck == some true)) = true
  case neg =>
    have heq : scanLogEntry detect sanitize verify policy env st entry opts =
        runDetectionPipeline detect sanitize policy env true st entry opts := by
      unfold scanLogEntry
      simp [h1]
    rw [heq] at hfail ⊢
    obtain ⟨ha, hb⟩ := runDetectionPipeline_failed detect sanitize policy env true
      st entry opts hfail
    rw [ha, hb]
    exact ⟨rfl, rfl, rfl, rfl⟩
  case pos =>
    by_cases h2 : verify (opts.userId.getD "") (opts.purpose.getD .logging) = true
    · have heq : scanLogEntry detect sanitize verify policy env st entry opts =
          runDetectionPipeline detect sanitize policy env true
            (tallyConsentCompliance st true) entry opts := by
        unfold scanLogEntry
        simp [h1, h2]
      rw [heq] at hfail ⊢
      obtain ⟨ha, hb⟩ := runDetectionPipeline_failed detect sanitize policy env true
        (tallyConsentCompliance st true) entry opts hfail
      rw [ha, hb]
      exact ⟨rfl, rfl, rfl, rfl⟩
    · by_cases h3 : policy.requireExplicitConsent = true
      · have heq : scanLogEntry detect sanitize verify policy env st entry opts =
            (createFailedScanResult env.scanId entry.message
              ["Consent not provided or invalid"] none env.now,
             tallyConsentCompliance st false, entry) := by
          unfold scanLogEntry
          simp [h1, h2, h3]
        rw [heq]
        exact ⟨rfl, rfl, rfl, rfl⟩
      · have heq : scanLogEntry detect sanitize verify policy env st entry opts =
            runDetectionPipeline detect sanitize policy env false
              (tallyConsentCompliance st false) entry opts := by
          unfold scanLogEntry
          simp [h1, h2, h3]
        rw [heq] at hfail ⊢
        obtain ⟨ha, hb⟩ := runDetectionPipeline_failed detect sanitize policy env false
          (tallyConsentCompliance st false) entry opts hfail
        rw [ha, hb]
        exact ⟨rfl, rfl, rfl, rfl⟩
/-! ### Helper lemmas for C4 -/

theorem foldl_max_shift (l : List ℚ) (a b : ℚ) :
    l.foldl max (max a b) = max a (l.foldl max b) := by
  induction l generalizing b with
  | nil => rfl
  | cons x t ih =>
      simp only [List.foldl_cons, max_assoc]
      exact ih (max b x)

theorem min_one_mul_absorb (v m : ℚ) (hm : 1 ≤ m) :
    min 1 (min 1 v * m) = min 1 (v * m) := by
  rcases le_total v 1 with h | h
  · rw [min_eq_right h]
  · have h1 : (1:ℚ) ≤ v * m := by nlinarith
    rw [min_eq_left h, one_mul, min_eq_left hm, min_eq_left h1]

theorem clamp01_of_nonneg (x : ℚ) (hx : 0 ≤ x) : clamp01 x = min 1 x := by
  rw [clamp01, max_eq_right hx]

theorem foldl_maxrisk (l : List PIIDetectionResult) (a : ℚ) :
    l.foldl (fun r e => max r (typeRisk e.type * e.confidence)) a =
      (l.map (fun e => typeRisk e.type * e.confidence)).foldl max a := by
  induction l generalizing a with
  | nil => rfl
  | cons x t ih =>
      simp only [List.foldl_cons, List.map_cons]
      exact ih _

theorem min_one_collapse (x : ℚ) : min 1 (min 1 x) = min 1 x := by
  rcases le_total x 1 with h | h
  · rw [min_eq_right h, min_eq_right h]
  · rw [min_eq_left h, min_self]

theorem risk_core1 (w m : ℚ) (hm : 1 ≤ m) :
    min 1 (max 0 w * m) = clamp01 (clamp01 w * m) := by
  have h0 : (0:ℚ) ≤ min 1 (max 0 w) := le_min zero_le_one (le_max_left 0 w)
  rw [show clamp01 w = min 1 (max 0 w) from rfl,
    clamp01_of_nonneg _ (mul_nonneg h0 (by linarith)),
    min_one_mul_absorb _ _ hm]

theorem risk_core (w m c : ℚ) (hm : 1 ≤ m) (hc : 1 ≤ c) :
    min 1 (max 0 w * m * c) = clamp01 (clamp01 (clamp01 w * m) * c) := by
  have h0 : (0:ℚ) ≤ min 1 (max 0 w) := le_min zero_le_one (le_max_left 0 w)
  have h1 : (0:ℚ) ≤ min 1 (max 0 w) * m := mul_nonneg h0 (by linarith)
  have h2 : (0:ℚ) ≤ min 1 (min 1 (max 0 w) * m) := le_min zero_le_one h1
  have hmc : (1:ℚ) ≤ m * c := by nlinarith
  rw [show clamp01 w = min 1 (max 0 w) from rfl,
    clamp01_of_nonneg _ h1,
    clamp01_of_nonneg _ (mul_nonneg h2 (by linarith)),
    min_one_mul_absorb (min 1 (max 0 w) * m) c hc,
    mul_assoc (min 1 (max 0 w)) m c,
    min_one_mul_absorb (max 0 w) (m * c) hmc, ← mul_assoc]

/-- Claim C4: the risk score equals the claim formula — 0 when no detection
survived, otherwise the maximum over detections of the type-severity base
(creditCard/ssn 0.9, password/apiKey/jwt 0.8, email/phone 0.6, ipAddress
0.4, other 0.5) times that detection's confidence, multiplied by the
log-level factor (error 1.2, warn 1.1, else 1.0), then, when more than one
detection survived, multiplied by `1 + 0.1 * (count - 1)`, each step clamped
to the unit interval. -/
theorem claim_C4_risk_score_formula (detections : List PIIDetectionResult)
    (logLevel : String) :
    calculateRiskScore detections logLevel = riskScoreClaim detections logLevel := by
  cases detections with
  | nil => rfl
  | cons d rest =>
      simp only [calculateRiskScore, riskScoreClaim]
      rw [if_neg (show ¬((d :: rest).length = 0) by simp)]
      rw [foldl_maxrisk, List.map_cons, List.foldl_cons, foldl_max_shift]
      have hm1 : (1:ℚ) ≤ (if (logLevel == "error") = true then (12:ℚ)/10
          else if (logLevel == "warn") = true then (11:ℚ)/10 else 1) := by
        split_ifs <;> norm_num
      cases rest with
      | nil =>
          rw [if_neg (show ¬((d :: ([] : List PIIDetectionResult)).length > 1) by simp),
            if_pos (show ([] : List PIIDetectionResult).length = 0 from rfl)]
          exact risk_core1 _ _ hm1
      | cons e tl =>
          rw [if_pos (show (d :: e :: tl).length > 1 by
              simp only [List.length_cons]
              omega),
            if_neg (show ¬((e :: tl).length = 0) by simp)]
          have hc1 : (1:ℚ) ≤ 1 + (((d :: e :: tl).length - 1 : ℕ) : ℚ) * (1/10) := by
            have h0 : (0:ℚ) ≤ (((d :: e :: tl).length - 1 : ℕ) : ℚ) := Nat.cast_nonneg _
            nlinarith
          rw [min_one_collapse]
          exact risk_core _ _ _ hm1 hc1

/-- Claim C5: the sensitivity level assigned by classification is restricted
when the risk score reaches 0.8 or a creditCard/ssn/password detection is
present; otherwise confidential when it reaches 0.6 or an apiKey/jwt
detection is present; otherwise internal when it reaches 0.3 or any
detection is present; otherwise public. -/
theorem claim_C5_classification_levels (detections : List PIIDetectionResult)
    (riskScore : ℚ) (now : Nat) :
    (classifyData detections riskScore now).sensitivityLevel =
      sensitivityLevelClaim detections riskScore := by
  unfold classifyData sensitivityLevelClaim
  simp only [ge_iff_le, Bool.or_eq_true, decide_eq_true_eq, List.any_eq_true,
    List.elem_eq_mem, List.mem_cons, List.mem_singleton, List.not_mem_nil,
    or_false, gt_iff_lt, List.length_pos]


/-! ### Helper lemma for C6 -/

theorem applyTypeSpecificValidation_eq_mul (value : List Char) (piiType : PIIType)
    (c : ℚ) :
    applyTypeSpecificValidation value piiType c = c * semanticMultiplier value piiType := by
  cases piiType <;>
    (simp only [applyTypeSpecificValidation, semanticMultiplier]; try split_ifs) <;> ring

/-- Claim C6: the per-match confidence is the pattern's base confidence,
discarded when a validator rejects the match and boosted by 0.1 capped at
1.0 when it passes, multiplied by the ±20-character-window context factor
when the pattern requires context, and finally multiplied by the semantic
multiplier (Luhn failure 0.5, malformed email 0.3, invalid SSN 0.2,
implausible phone digit count 0.6); the context factor takes the claimed
per-type values (ssn 1.0/0.8/0.6, creditCard 1.0/0.9/0.7, email
1.0/0.9/0.8, phone 1.0/0.8, apiKey and jwt 1.0/0.8); and candidates whose
final confidence is below minConfidence are dropped by the scan filter. -/
theorem claim_C6_confidence_pipeline (pattern : PIIPattern) (text : List Char)
    (matchIndex : Nat) (matchedValue : List Char) :
    matchConfidence pattern text matchIndex matchedValue =
      matchConfidenceClaim pattern text matchIndex matchedValue ∧
    (validateContext text matchIndex matchedValue .ssn = 1 ∨
      validateContext text matchIndex matchedValue .ssn = 8/10 ∨
      validateContext text matchIndex matchedValue .ssn = 6/10) ∧
    (validateContext text matchIndex matchedValue .creditCard = 1 ∨
      validateContext text matchIndex matchedValue .creditCard = 9/10 ∨
      validateContext text matchIndex matchedValue .creditCard = 7/10) ∧
    (validateContext text matchIndex matchedValue .email = 1 ∨
      validateContext text matchIndex matchedValue .email = 9/10 ∨
      validateContext text matchIndex matchedValue .email = 8/10) ∧
    (validateContext text matchIndex matchedValue .phone = 1 ∨
      validateContext text matchIndex matchedValue .phone = 8/10) ∧
    (validateContext text matchIndex matchedValue .apiKey = 1 ∨
      validateContext text matchIndex matchedValue .apiKey = 8/10) ∧
    (validateContext text matchIndex matchedValue .jwt = 1 ∨
      validateContext text matchIndex matchedValue .jwt = 8/10) ∧
    (∀ (minConfidence : ℚ) (ms : List PIIDetectionResult) (m : PIIDetectionResult),
      m ∈ filterByMinConfidence minConfidence ms ↔
        m ∈ ms ∧ minConfidence ≤ m.confidence) := by
  refine ⟨?_, ?_, ?_, ?_, ?_, ?_, ?_, ?_⟩
  · unfold matchConfidence matchConfidenceClaim
    cases hval : pattern.validator with
    | none => simp only [applyTypeSpecificValidation_eq_mul]
    | some v =>
        cases hv : v matchedValue with
        | false => simp [hv]
        | true => simp [hv, applyTypeSpecificValidation_eq_mul]
  · simp only [validateContext]
    split_ifs <;> norm_num
  · simp only [validateContext]
    split_ifs <;> norm_num
  · simp only [validateContext]
    split_ifs <;> norm_num
  · simp only [validateContext]
    split_ifs <;> norm_num
  · simp only [validateContext]
    split_ifs <;> norm_num
  · simp only [validateContext]
    split_ifs <;> norm_num
  · intro minConfidence ms m
    simp [filterByMinConfidence, List.mem_filter]

/-- Claim C7: a single audit append (the only way any consent operation
writes to the log) keeps the oldest-first prefix-drop shape, leaves at most
10,000 entries after every append no matter how many came before, and
always retains the newest entry as the last element — so the audit log of
any operation sequence never exceeds 10,000 entries and the oldest entries
are pruned first. -/
theorem claim_C7_audit_log_cap (auditLog : List AuditLogEntry)
    (entry : AuditLogEntry) :
    addAuditLogEntry auditLog entry =
      (auditLog ++ [entry]).drop (auditLog.length + 1 - 10000) ∧
    (addAuditLogEntry auditLog entry).length ≤ 10000 ∧
    (addAuditLogEntry auditLog entry).getLast? = some entry := by
  unfold addAuditLogEntry
  by_cases h : (auditLog ++ [entry]).length > 10000
  · rw [if_pos h]
    have hlen : (auditLog ++ [entry]).length = auditLog.length + 1 := by
      simp
    refine ⟨by rw [hlen], ?_, ?_⟩
    · rw [List.length_drop]
      omega
    · rw [List.getLast?_drop, if_neg (by omega), List.getLast?_concat]
  · rw [if_neg h]
    have hlen : (auditLog ++ [entry]).length = auditLog.length + 1 := by
      simp
    refine ⟨?_, by omega, List.getLast?_concat _⟩
    rw [show auditLog.length + 1 - 10000 = 0 by omega, List.drop_zero]

/-! ### Helper lemmas for C8 and C10: association-list get after set -/

theorem assoc_get_map_update {α β : Type} [DecidableEq α]
    (xs : List (α × β)) (k : α) (v : β) (p : α) :
    ((xs.map (fun r => if r.1 == k then (r.1, v) else r)).find?
        (fun r => r.1 == p)).map (fun r => r.2) =
      if p = k then
        ((xs.find? (fun r => r.1 == p)).map (fun r => r.2)).map (fun _ => v)
      else (xs.find? (fun r => r.1 == p)).map (fun r => r.2) := by
  induction xs with
  | nil => by_cases h : p = k <;> simp [h]
  | cons hd tl ih =>
      rw [List.map_cons]
      by_cases hk : (hd.1 == k) = true
      · rw [if_pos hk]
        by_cases hp : (hd.1 == p) = true
        · have hpk : p = k := by
            rw [← eq_of_beq hp, eq_of_beq hk]
          simp [List.find?_cons, hp, hk, hpk]
        · simp only [List.find?_cons, hp]
          exact ih
      · rw [if_neg hk]
        by_cases hp : (hd.1 == p) = true
        · have hpk : ¬ p = k := by
            intro h
            rw [← eq_of_beq hp] at h
            exact hk (beq_iff_eq.mpr h)
          simp [List.find?_cons, hp, hpk]
        · simp only [List.find?_cons, hp]
          exact ih

theorem assoc_get_set {α β : Type} [DecidableEq α]
    (xs : List (α × β)) (k : α) (v : β) (p : α) :
    ((if xs.any (fun r => r.1 == k) then
        xs.map (fun r => if r.1 == k then (r.1, v) else r)
      else xs ++ [(k, v)]).find? (fun r => r.1 == p)).map (fun r => r.2) =
      if p = k then some v
      else (xs.find? (fun r => r.1 == p)).map (fun r => r.2) := by
  by_cases hany : (xs.any (fun r => r.1 == k)) = true
  · rw [if_pos hany, assoc_get_map_update]
    by_cases hpk : p = k
    · rw [if_pos hpk, if_pos hpk]
      subst hpk
      have hsome := List.find?_isSome.mpr (List.any_eq_true.mp hany)
      obtain ⟨r, hr⟩ := Option.isSome_iff_exists.mp hsome
      rw [hr]
      rfl
    · rw [if_neg hpk, if_neg hpk]
  · rw [if_neg hany]
    have hf : (xs.any fun r => r.1 == k) = false := Bool.eq_false_iff.mpr hany
    have hnone : xs.find? (fun r => r.1 == k) = none :=
      List.find?_eq_none.mpr (List.any_eq_false.mp hf)
    by_cases hpk : p = k
    · subst hpk
      rw [List.find?_append, hnone]
      simp
    · rw [List.find?_append]
      have hkp : (k == p) = false := by
        rw [Bool.eq_false_iff]
        intro h
        exact hpk (eq_of_beq h).symm
      rw [show List.find? (fun r => r.1 == p) [(k, v)] = none by
        simp [List.find?_cons, hkp]]
      rw [Option.or_none, if_neg hpk]

theorem getPurposeStatus_setPurposeStatus
    (ps : List (ProcessingPurpose × ConsentStatus)) (q : ProcessingPurpose)
    (s : ConsentStatus) (p : ProcessingPurpose) :
    getPurposeStatus (setPurposeStatus ps q s) p =
      if p = q then some s else getPurposeStatus ps p := by
  unfold getPurposeStatus setPurposeStatus
  exact assoc_get_set ps q s p

theorem getPreferences_setPreferences (prefs : List (String × ConsentPreferences))
    (userId : String) (v : ConsentPreferences) (p : String) :
    ((( setPreferences prefs userId v).find? (fun r => r.1 == p)).map
      (fun r => r.2)) =
      if p = userId then some v
      else ((prefs.find? (fun r => r.1 == p)).map (fun r => r.2)) := by
  unfold setPreferences
  exact assoc_get_set prefs userId v p

theorem any_status_iff (purposes : List (ProcessingPurpose × ConsentStatus))
    (s : ConsentStatus) :
    (((purposes.map (fun q => q.2)).any fun status => status == s) = true) ↔
      ∃ q ∈ purposes, q.2 = s := by
  rw [List.any_eq_true]
  constructor
  · rintro ⟨x, hx, hxe⟩
    obtain ⟨q, hq, rfl⟩ := List.mem_map.mp hx
    exact ⟨q, hq, eq_of_beq hxe⟩
  · rintro ⟨q, hq, hs⟩
    exact ⟨q.2, List.mem_map.mpr ⟨q, hq, rfl⟩, beq_iff_eq.mpr hs⟩

theorem all_status_iff (purposes : List (ProcessingPurpose × ConsentStatus))
    (s : ConsentStatus) :
    (((purposes.map (fun q => q.2)).all fun status => status == s) = true) ↔
      ∀ q ∈ purposes, q.2 = s := by
  rw [List.all_eq_true]
  constructor
  · intro h q hq
    exact eq_of_beq (h q.2 (List.mem_map.mpr ⟨q, hq, rfl⟩))
  · rintro h x hx
    obtain ⟨q, hq, rfl⟩ := List.mem_map.mp hx
    exact beq_iff_eq.mpr (h q hq)

theorem calculateGlobalPIIConsent_eq_claim
    (purposes : List (ProcessingPurpose × ConsentStatus)) :
    calculateGlobalPIIConsent purposes = globalPIIConsentClaim purposes := by
  unfold calculateGlobalPIIConsent globalPIIConsentClaim
  by_cases hw : ((purposes.map (fun q => q.2)).any
      fun status => status == ConsentStatus.withdrawn) = true
  · rw [if_pos hw, if_pos ((any_status_iff _ _).mp hw)]
  · rw [if_neg hw, if_neg (fun hc => hw ((any_status_iff _ _).mpr hc))]
    by_cases hd : ((purposes.map (fun q => q.2)).any
        fun status => status == ConsentStatus.denied) = true
    · rw [if_pos hd, if_pos ((any_status_iff _ _).mp hd)]
    · rw [if_neg hd, if_neg (fun hc => hd ((any_status_iff _ _).mpr hc))]
      by_cases hg : ((purposes.map (fun q => q.2)).all
          fun status => status == ConsentStatus.granted) = true
      · rw [if_pos hg, if_pos ((all_status_iff _ _).mp hg)]
      · rw [if_neg hg, if_neg (fun hc => hg ((all_status_iff _ _).mpr hc))]

theorem addAuditLogEntry_of_le (log : List AuditLogEntry) (e : AuditLogEntry)
    (h : log.length + 1 ≤ 10000) :
    addAuditLogEntry log e = log ++ [e] := by
  unfold addAuditLogEntry
  rw [if_neg]
  rw [List.length_append]
  simp only [List.length_singleton]
  omega

theorem recordConsentStep_audit (cfg : ConsentConfig) (env : ConsentEnv)
    (userId : String) (status : ConsentStatus) (ipAddress userAgent : String)
    (acc : ConsentPreferences × List AuditLogEntry) (q : ProcessingPurpose)
    (h : acc.2.length + 1 ≤ 10000) :
    ∃ e, (recordConsentStep cfg env userId status ipAddress userAgent acc q).2 =
      acc.2 ++ [e] :=
  ⟨_, addAuditLogEntry_of_le _ _ h⟩

theorem foldl_recordConsentStep_purposes (cfg : ConsentConfig) (env : ConsentEnv)
    (userId : String) (status : ConsentStatus) (ipAddress userAgent : String)
    (purposes : List ProcessingPurpose)
    (acc : ConsentPreferences × List AuditLogEntry) (p : ProcessingPurpose) :
    getPurposeStatus
      ((purposes.foldl (recordConsentStep cfg env userId status ipAddress userAgent)
        acc).1.purposes) p =
      if p ∈ purposes then some status else getPurposeStatus acc.1.purposes p := by
  induction purposes generalizing acc with
  | nil => simp
  | cons q rest ih =>
      rw [List.foldl_cons, ih]
      have hstep : (recordConsentStep cfg env userId status ipAddress userAgent
          acc q).1.purposes = setPurposeStatus acc.1.purposes q status := rfl
      by_cases hin : p ∈ rest
      · rw [if_pos hin, if_pos (by simp [hin])]
      · rw [if_neg hin, hstep, getPurposeStatus_setPurposeStatus]
        by_cases hpq : p = q
        · rw [if_pos hpq, if_pos (by simp [hpq])]
        · rw [if_neg hpq, if_neg (by simp [hpq, hin])]

theorem foldl_recordConsentStep_audit (cfg : ConsentConfig) (env : ConsentEnv)
    (userId : String) (status : ConsentStatus) (ipAddress userAgent : String)
    (purposes : List ProcessingPurpose)
    (acc : ConsentPreferences × List AuditLogEntry)
    (hcap : acc.2.length + purposes.length ≤ 10000) :
    ∃ newEntries : List AuditLogEntry,
      (purposes.foldl (recordConsentStep cfg env userId status ipAddress userAgent)
        acc).2 = acc.2 ++ newEntries ∧
      newEntries.length = purposes.length := by
  induction purposes generalizing acc with
  | nil => exact ⟨[], by simp, rfl⟩
  | cons q rest ih =>
      obtain ⟨e, he⟩ := recordConsentStep_audit cfg env userId status ipAddress
        userAgent acc q (by simp only [List.length_cons] at hcap; omega)
      obtain ⟨ne, hne, hlen⟩ := ih
        (recordConsentStep cfg env userId status ipAddress userAgent acc q)
        (by
          rw [he, List.length_append]
          simp only [List.length_singleton, List.length_cons, List.length_nil] at hcap ⊢
          omega)
      refine ⟨e :: ne, ?_, by simp [hlen]⟩
      rw [List.foldl_cons, hne, he, List.append_assoc]
      rfl

/-- Counterexample to claim C8 as stated: recording consent for a purpose
whose status already equals the requested status changes no purpose, yet
exactly one audit entry is appended — the audit count follows the request
list, not the set of purposes whose status changed. -/
theorem claim_C8_counterexample :
    getPurposeStatus samplePrefs.purposes .logging = some .granted ∧
    (recordConsent sampleConsentConfig sampleConsentEnv sampleConsentState "u"
      [.logging] true "ip" "ua").2.purposes = samplePrefs.purposes ∧
    (recordConsent sampleConsentConfig sampleConsentEnv sampleConsentState "u"
      [.logging] true "ip" "ua").1.auditLog.length =
      sampleConsentState.auditLog.length + 1 := by
  decide

/-- Claim C8 (amended): after recordConsent the derived global
piiProcessing status is withdrawn if any purpose is withdrawn, else denied
if any is denied, else granted if every purpose is granted, else pending;
recordConsent for N purposes updates each requested purpose independently
to the requested status, leaving the others untouched; and it appends one
audit entry per purpose in the request — whether or not that purpose's
status actually changed (this is the only amendment to the claim).  The
same derived-status rule holds after withdrawConsent. -/
theorem claim_C8_amended_audit_per_purpose (cfg : ConsentConfig) (env : ConsentEnv)
    (st : ConsentManagerState) (userId : String)
    (purposes : List ProcessingPurpose) (consentGiven : Bool)
    (ipAddress userAgent : String) (prior : ConsentPreferences)
    (hprev : getPreferences st userId = some prior)
    (hcap : st.auditLog.length + purposes.length ≤ 10000) :
    (recordConsent cfg env st userId purposes consentGiven ipAddress
      userAgent).2.piiProcessing =
      globalPIIConsentClaim
        (recordConsent cfg env st userId purposes consentGiven ipAddress
          userAgent).2.purposes ∧
    (∀ p : ProcessingPurpose,
      getPurposeStatus
        (recordConsent cfg env st userId purposes consentGiven ipAddress
          userAgent).2.purposes p =
        if p ∈ purposes then
          some (if consentGiven then ConsentStatus.granted else ConsentStatus.denied)
        else getPurposeStatus prior.purposes p) ∧
    (∃ newEntries : List AuditLogEntry,
      (recordConsent cfg env st userId purposes consentGiven ipAddress
        userAgent).1.auditLog = st.auditLog ++ newEntries ∧
      newEntries.length = purposes.length) ∧
    (∀ (st2 : ConsentManagerState) (prefs2 : ConsentPreferences),
      withdrawConsent cfg env st userId purposes ipAddress userAgent =
        some (st2, prefs2) →
      prefs2.piiProcessing = globalPIIConsentClaim prefs2.purposes) := by
  refine ⟨?_, ?_, ?_, ?_⟩
  · simp only [recordConsent, hprev]
    exact calculateGlobalPIIConsent_eq_claim _
  · intro p
    simp only [recordConsent, hprev]
    exact foldl_recordConsentStep_purposes cfg env userId _ ipAddress userAgent
      purposes (prior, st.auditLog) p
  · simp only [recordConsent, hprev]
    exact foldl_recordConsentStep_audit cfg env userId _ ipAddress userAgent
      purposes (prior, st.auditLog) hcap
  · intro st2 prefs2 h
    simp only [withdrawConsent, hprev, Option.some.injEq, Prod.mk.injEq] at h
    obtain ⟨-, h2⟩ := h
    subst h2
    exact calculateGlobalPIIConsent_eq_claim _

/-- Witness for the amended C8 at a concrete input: user `u` already has
logging granted; recording a denial for logging and analytics flips both,
drives the global status to denied, and appends two audit entries. -/
theorem claim_C8_witness :
    (recordConsent sampleConsentConfig sampleConsentEnv sampleConsentState "u"
      [.logging, .analytics] false "ip" "ua").2.piiProcessing =
      globalPIIConsentClaim
        (recordConsent sampleConsentConfig sampleConsentEnv sampleConsentState "u"
          [.logging, .analytics] false "ip" "ua").2.purposes ∧
    (∀ p : ProcessingPurpose,
      getPurposeStatus
        (recordConsent sampleConsentConfig sampleConsentEnv sampleConsentState "u"
          [.logging, .analytics] false "ip" "ua").2.purposes p =
        if p ∈ [ProcessingPurpose.logging, ProcessingPurpose.analytics] then
          some (if false then ConsentStatus.granted else ConsentStatus.denied)
        else getPurposeStatus samplePrefs.purposes p) ∧
    (∃ newEntries : List AuditLogEntry,
      (recordConsent sampleConsentConfig sampleConsentEnv sampleConsentState "u"
        [.logging, .analytics] false "ip" "ua").1.auditLog =
        sampleConsentState.auditLog ++ newEntries ∧
      newEntries.length = [ProcessingPurpose.logging, ProcessingPurpose.analytics].length) ∧
    (∀ (st2 : ConsentManagerState) (prefs2 : ConsentPreferences),
      withdrawConsent sampleConsentConfig sampleConsentEnv sampleConsentState "u"
        [.logging, .analytics] "ip" "ua" = some (st2, prefs2) →
      prefs2.piiProcessing = globalPIIConsentClaim prefs2.purposes) :=
  claim_C8_amended_audit_per_purpose sampleConsentConfig sampleConsentEnv
    sampleConsentState "u" [.logging, .analytics] false "ip" "ua" samplePrefs
    (by decide) (by decide)

/-- Claim C10: recordConsent with an empty purposes list for a user with no
prior preferences creates a record with an empty purposes map whose derived
global piiProcessing status is granted — the all-purposes-granted check is
vacuously true over the empty map. -/
theorem claim_C10_empty_purposes_vacuous_grant (cfg : ConsentConfig)
    (env : ConsentEnv) (st : ConsentManagerState) (userId : String)
    (ipAddress userAgent : String)
    (hnone : getPreferences st userId = none) :
    (recordConsent cfg env st userId [] true ipAddress userAgent).2.purposes = [] ∧
    (recordConsent cfg env st userId [] true ipAddress
      userAgent).2.piiProcessing = .granted ∧
    getPreferences (recordConsent cfg env st userId [] true ipAddress
      userAgent).1 userId =
      some (recordConsent cfg env st userId [] true ipAddress userAgent).2 := by
  refine ⟨?_, ?_, ?_⟩
  · simp only [recordConsent, hnone]
    rfl
  · simp only [recordConsent, hnone]
    rfl
  · simp only [recordConsent, hnone]
    unfold getPreferences
    rw [getPreferences_setPreferences, if_pos rfl]

/-- Witness for C10 at a concrete input: the empty consent manager state. -/
theorem claim_C10_witness :
    (recordConsent sampleConsentConfig sampleConsentEnv emptyConsentState "u" []
      true "ip" "ua").2.purposes = [] ∧
    (recordConsent sampleConsentConfig sampleConsentEnv emptyConsentState "u" []
      true "ip" "ua").2.piiProcessing = .granted ∧
    getPreferences (recordConsent sampleConsentConfig sampleConsentEnv
      emptyConsentState "u" [] true "ip" "ua").1 "u" =
      some (recordConsent sampleConsentConfig sampleConsentEnv emptyConsentState
        "u" [] true "ip" "ua").2 :=
  claim_C10_empty_purposes_vacuous_grant sampleConsentConfig sampleConsentEnv
    emptyConsentState "u" "ip" "ua" (by decide)

/-- Witness for C3 at a concrete input: a policy requiring explicit consent,
a verifier rejecting the user, and a detector that would succeed — the hard
gate still short-circuits to the failed result. -/
theorem claim_C3_witness :
    samplePolicy.requireExplicitConsent = true ∧
    (scanLogEntry okDetect passSanitize (fun _ _ => false) samplePolicy
        sampleScanEnv sampleEngineState sampleEntry sampleOpts =
      (createFailedScanResult sampleScanEnv.scanId sampleEntry.message
        ["Consent not provided or invalid"] none sampleScanEnv.now,
       tallyConsentCompliance sampleEngineState false, sampleEntry) ∧
    (scanLogEntry okDetect passSanitize (fun _ _ => false) samplePolicy
      sampleScanEnv sampleEngineState sampleEntry sampleOpts).1.scanSuccessful
      = false ∧
    (scanLogEntry okDetect passSanitize (fun _ _ => false) samplePolicy
      sampleScanEnv sampleEngineState sampleEntry sampleOpts).1.detections = [] ∧
    (scanLogEntry okDetect passSanitize (fun _ _ => false) samplePolicy
      sampleScanEnv sampleEngineState sampleEntry sampleOpts).1.riskScore = 0 ∧
    (scanLogEntry okDetect passSanitize (fun _ _ => false) samplePolicy
      sampleScanEnv sampleEngineState sampleEntry
      sampleOpts).1.classification.sensitivityLevel = .publicLevel ∧
    (scanLogEntry okDetect passSanitize (fun _ _ => false) samplePolicy
      sampleScanEnv sampleEngineState sampleEntry sampleOpts).1.scanErrors =
      ["Consent not provided or invalid"]) :=
  ⟨rfl,
    (claim_C3_consent_hard_gate okDetect passSanitize (fun _ _ => false)
      samplePolicy sampleScanEnv sampleEngineState sampleEntry sampleOpts "u"
      rfl (by decide) (by decide) rfl).1 rfl⟩

/-- Witness for C9 at a concrete input: a detector error (standing for a
throwing custom validator) yields a failed scan that leaves the engine
state untouched apart from the compliance tally. -/
theorem claim_C9_witness :
    (scanLogEntry errDetect passSanitize (fun _ _ => true) samplePolicy
      sampleScanEnv sampleEngineState sampleEntry sampleOpts).2.1.alerts =
      sampleEngineState.alerts ∧
    (scanLogEntry errDetect passSanitize (fun _ _ => true) samplePolicy
      sampleScanEnv sampleEngineState sampleEntry sampleOpts).2.1.scanHistory =
      sampleEngineState.scanHistory ∧
    (scanLogEntry errDetect passSanitize (fun _ _ => true) samplePolicy
      sampleScanEnv sampleEngineState sampleEntry sampleOpts).2.1.statistics =
      { sampleEngineState.statistics with consentCompliance :=
          (scanLogEntry errDetect passSanitize (fun _ _ => true) samplePolicy
            sampleScanEnv sampleEngineState sampleEntry
            sampleOpts).2.1.statistics.consentCompliance } ∧
    (scanLogEntry errDetect passSanitize (fun _ _ => true) samplePolicy
      sampleScanEnv sampleEngineState sampleEntry sampleOpts).2.2 = sampleEntry :=
  claim_C9_failed_scan_preserves_state errDetect passSanitize (fun _ _ => true)
    samplePolicy sampleScanEnv sampleEngineState sampleEntry sampleOpts
    (by decide)

end ConsoleCode
